import Mathlib

/-!
Shallow embedding of the URL-shortener service in `src/backend/server.js`.

The service keeps two in-memory maps, `const urls = {}` (shortcode to URL
record) and `const clicks = {}` (shortcode to click-event list), and exposes
three handlers: create (`POST /shorturls`), resolve (`GET /shorturls/:code`)
and stats (`GET /shorturls/:code/stats`).  Each handler runs at a single
instant `now`, modelled as an `Int` millisecond timestamp (JS `Date` values
compare numerically).  JSON request fields that may be absent are `Option`s;
JS truthiness of a string field (`if (shortcode)`, `!url`) is "present and
non-empty".
-/

namespace UrlShortener

/-- Record stored by the create handler: `urls[code] = { url, createdAt, expiry, clicks: 0 }`. -/
structure UrlRecord where
  url : String
  createdAt : Int
  expiry : Int
  clicks : Nat
deriving DecidableEq, Repr

/-- Click event pushed by the resolve handler: `{ timestamp, referrer, ip }`;
the referrer is `req.get('referrer') || null`, so absent-or-empty is `none`. -/
structure ClickEvent where
  timestamp : Int
  referrer : Option String
  ip : String
deriving DecidableEq, Repr

/-- Whole-server mutable state: the two module-level objects
`const urls = {}` and `const clicks = {}`. -/
structure ServerState where
  urls : String → Option UrlRecord
  clicks : String → Option (List ClickEvent)

/-- State at process start: both objects empty. -/
def initState : ServerState := ⟨fun _ => none, fun _ => none⟩

/-- JS property assignment `m[k] = v` on an object modelled as a partial map. -/
def setKey {α : Type} (m : String → Option α) (k : String) (v : α) : String → Option α :=
  fun q => if q = k then some v else m q

/-- Alphabet string used by `generateShortcode`
(`'abcdefghijklmnopqrstuvwxyzABCDEFGHIJKLMNOPQRSTUVWXYZ0123456789'`). -/
def chars : List Char :=
  "abcdefghijklmnopqrstuvwxyzABCDEFGHIJKLMNOPQRSTUVWXYZ0123456789".data

/-- One attempt of the generator: `Math.floor(Math.random() * chars.length)`
six times, i.e. six independent indices into the alphabet. -/
def Draw : Type := Fin 6 → Fin chars.length

/-- Candidate code built from one attempt:
`Array(6).fill(0).map(() => chars[...]).join('')`. -/
def drawCode (d : Draw) : String :=
  String.mk ((List.finRange 6).map fun i => chars.get (d i))

/-- The `do { code = ... } while (urls[code])` loop of `generateShortcode`,
fed by the stream of attempts; `none` only when the finite stream runs out
(the JS loop would keep drawing). -/
def generateShortcode (urls : String → Option UrlRecord) : List Draw → Option String
  | [] => none
  | d :: rest =>
    let code := drawCode d
    if (urls code).isSome then generateShortcode urls rest else some code

/-- Character class `[a-zA-Z0-9]` of the shortcode regex. -/
def isAlphaNumChar (c : Char) : Bool :=
  (('a' ≤ c) && (c ≤ 'z')) || (('A' ≤ c) && (c ≤ 'Z')) || (('0' ≤ c) && (c ≤ '9'))

/-- The test `/^[a-zA-Z0-9]{4,}$/.test(code)` of `isValidShortcode`. -/
def isValidShortcode (s : String) : Bool :=
  decide (4 ≤ s.length) && s.data.all isAlphaNumChar

/-- The helper `getExpiryDate(minutes)`: current time plus `minutes` minutes
(JS `setMinutes` rolls over, so in milliseconds it is `now + minutes * 60000`). -/
def getExpiryDate (now : Int) (minutes : Int) : Int :=
  now + minutes * 60000

/-!
Port of the `valid-url` library's `is_uri`, which the create handler calls as
`validUrl.isUri(url)`.  The library checks the character set, incomplete
percent escapes, then splits the value with the RFC 3986 regex
`^(?:([^:/?#]+):)?(?://([^/?#]*))?([^?#]*)...` and requires a scheme matching
`^[a-z][a-z0-9+\-.]*$`, with the path/authority slash discipline.
-/

/-- Characters the library's first filter accepts
(`[a-z0-9:/?#[]@!$&'()*+,;=.-_~%]`, case-insensitive). -/
def isUriChar (c : Char) : Bool :=
  c.isAlpha || c.isDigit ||
  c == ':' || c == '/' || c == '?' || c == '#' || c == '[' || c == ']' ||
  c == '@' || c == '!' || c == '$' || c == '&' || c == '\'' || c == '(' ||
  c == ')' || c == '*' || c == '+' || c == ',' || c == ';' || c == '=' ||
  c == '.' || c == '-' || c == '_' || c == '~' || c == '%'

/-- Hex digit class `[0-9a-f]` with the `i` flag. -/
def isHexChar (c : Char) : Bool :=
  c.isDigit || (('a' ≤ c) && (c ≤ 'f')) || (('A' ≤ c) && (c ≤ 'F'))

/-- Combined scan for the library's two bad-percent-escape patterns
`%[^0-9a-f]` and `%[0-9a-f](:?[^0-9a-f]|$)` (both case-insensitive); a `%`
followed by a lone hex digit at end of string matches the second pattern,
and a bare trailing `%` matches neither. -/
def badPercent : List Char → Bool
  | [] => false
  | ['%'] => false
  | ['%', _] => true
  | '%' :: c :: c2 :: rest =>
    if !isHexChar c then true
    else if !isHexChar c2 then true
    else badPercent (c :: c2 :: rest)
  | _ :: rest => badPercent rest

/-- Negation of the scheme-terminator class `[^:/?#]`. -/
def notSchemeDelim (c : Char) : Bool := !(c == ':' || c == '/' || c == '?' || c == '#')

/-- Group `(?:([^:/?#]+):)?` of the split regex: the scheme, when a non-empty
run of non-delimiters is followed by a colon. -/
def splitScheme (s : List Char) : Option (List Char) × List Char :=
  let run := s.takeWhile notSchemeDelim
  match s.drop run.length with
  | ':' :: r => if run.isEmpty then (none, s) else (some run, r)
  | _ => (none, s)

/-- Negation of the authority-terminator class `[^/?#]`. -/
def notAuthDelim (c : Char) : Bool := !(c == '/' || c == '?' || c == '#')

/-- Group `(?://([^/?#]*))?` of the split regex: the authority, present
(possibly empty) exactly when the remainder starts with `//`. -/
def splitAuthority (s : List Char) : Option (List Char) × List Char :=
  match s with
  | '/' :: '/' :: r =>
    let auth := r.takeWhile notAuthDelim
    (some auth, r.drop auth.length)
  | _ => (none, s)

/-- Negation of the path-terminator class `[^?#]`. -/
def notPathDelim (c : Char) : Bool := !(c == '?' || c == '#')

/-- Group `([^?#]*)` of the split regex: the path. -/
def uriPath (s : List Char) : List Char := s.takeWhile notPathDelim

/-- Body class `[a-z0-9+\-.]` of the scheme regex. -/
def schemeRestChar (c : Char) : Bool :=
  c.isAlpha || c.isDigit || c == '+' || c == '-' || c == '.'

/-- The scheme test `/^[a-z][a-z0-9+\-.]*$/` applied to the lowercased scheme. -/
def schemeOk : List Char → Bool
  | [] => false
  | c :: rest => c.isAlpha && rest.all schemeRestChar

/-- The library's `is_uri(value)`, as a Bool (the JS returns the value or
`undefined`, used only for truthiness by the handler). -/
def isUri (value : String) : Bool :=
  let cs := value.data
  if cs.isEmpty then false
  else if cs.any (fun c => !isUriChar c) then false
  else if badPercent cs then false
  else
    match splitScheme cs with
    | (none, _) => false
    | (some scheme, r1) =>
      let ar := splitAuthority r1
      let path := uriPath ar.2
      (match ar.1 with
       | some a =>
         if !a.isEmpty then (path.isEmpty || path.head? == some '/')
         else !(path.take 2 == ['/', '/'])
       | none => !(path.take 2 == ['/', '/'])) &&
      schemeOk scheme

/-- JSON body of `POST /shorturls`: `const { url, validity, shortcode } = req.body`.
`validity` is a JSON number, kept as a rational so that the handler's
`Number.isInteger` test is expressible. -/
structure CreateReq where
  url : Option String
  validity : Option ℚ
  shortcode : Option String

/-- Outcome of the create handler, as seen by the caller: the 201 response
(carrying the shortcode placed in `shortLink` and the expiry), or one of the
400/409 error responses. -/
inductive CreateResult where
  | created (shortcode : String) (expiry : Int)
  | invalidUrl
  | invalidShortcode
  | shortcodeConflict
  | invalidValidity
deriving DecidableEq, Repr

/-- Shortcode-selection part of the create handler: the custom-shortcode
branch (`if (shortcode) { ... }`) or the generator.  A JS-falsy custom
shortcode (absent or the empty string) goes to the generator. -/
def codeStage (st : ServerState) (req : CreateReq) (draws : List Draw) :
    Option (Except CreateResult String) :=
  match req.shortcode with
  | some c =>
    if c ≠ "" then
      if !isValidShortcode c then some (.error .invalidShortcode)
      else if (st.urls c).isSome then some (.error .shortcodeConflict)
      else some (.ok c)
    else (generateShortcode st.urls draws).map .ok
  | none => (generateShortcode st.urls draws).map .ok

/-- Validity check of the create handler: default 30 when the field is
absent, otherwise `!Number.isInteger(validity) || validity < 1` is a 400. -/
def checkValidity : Option ℚ → Except Unit Int
  | none => .ok 30
  | some v => if v.den = 1 ∧ 1 ≤ v then .ok v.num else .error ()

/-- The `POST /shorturls` handler.  `draws` feeds the generator's random
attempts; the result is `none` exactly when the generator's unbounded loop is
entered and the stream runs out. -/
def createShort (st : ServerState) (now : Int) (req : CreateReq) (draws : List Draw) :
    Option (CreateResult × ServerState) :=
  match req.url with
  | none => some (.invalidUrl, st)
  | some u =>
    if u = "" || !isUri u then some (.invalidUrl, st)
    else
      match codeStage st req draws with
      | none => none
      | some (.error e) => some (e, st)
      | some (.ok code) =>
        match checkValidity req.validity with
        | .error _ => some (.invalidValidity, st)
        | .ok duration =>
          let expiry := getExpiryDate now duration
          some (.created code expiry,
            ⟨setKey st.urls code ⟨u, now, expiry, 0⟩,
             setKey st.clicks code []⟩)

/-- Outcome of the resolve handler: the 302 redirect, the 404/410 errors, or
the 500 produced by the error middleware if `clicks[shortcode].push` threw
(reachable only from a state where `urls` has the key but `clicks` does not). -/
inductive ResolveResult where
  | redirect (url : String)
  | notFound
  | expired
  | serverError
deriving DecidableEq, Repr

/-- Event object pushed on a successful resolve:
`{ timestamp: now, referrer: req.get('referrer') || null, ip: req.ip }`. -/
def mkClickEvent (now : Int) (referrer : Option String) (ip : String) : ClickEvent :=
  ⟨now, match referrer with | some s => if s = "" then none else some s | none => none, ip⟩

/-- The `GET /shorturls/:shortcode` handler.  Note the JS order: on the
success path `entry.clicks++` happens before the ledger push, so in the
(unreachable from `initState`) missing-ledger case the count is already
incremented when the push throws. -/
def resolve (st : ServerState) (code : String) (now : Int) (referrer : Option String)
    (ip : String) : ResolveResult × ServerState :=
  match st.urls code with
  | none => (.notFound, st)
  | some entry =>
    if entry.expiry < now then (.expired, st)
    else
      let urls2 := setKey st.urls code { entry with clicks := entry.clicks + 1 }
      match st.clicks code with
      | none => (.serverError, ⟨urls2, st.clicks⟩)
      | some l =>
        (.redirect entry.url, ⟨urls2, setKey st.clicks code (l ++ [mkClickEvent now referrer ip])⟩)

/-- Body of the 200 response of the stats handler. -/
structure StatsView where
  shortcode : String
  originalUrl : String
  createdAt : Int
  expiry : Int
  totalClicks : Nat
  clickDetails : List ClickEvent
deriving DecidableEq, Repr

/-- Outcome of the stats handler: the JSON summary or the 404. -/
inductive StatsResult where
  | ok (view : StatsView)
  | notFound
deriving DecidableEq, Repr

/-- The `GET /shorturls/:shortcode/stats` handler; `clicks[shortcode] || []`
is a lookup with default, and `clickDetails` re-maps each event to an object
with the same three fields. -/
def stats (st : ServerState) (code : String) : StatsResult × ServerState :=
  match st.urls code with
  | none => (.notFound, st)
  | some entry =>
    let allClicks := (st.clicks code).getD []
    (.ok ⟨code, entry.url, entry.createdAt, entry.expiry, entry.clicks,
      allClicks.map (fun c => ⟨c.timestamp, c.referrer, c.ip⟩)⟩, st)

/-- A sequence of resolve calls against one shortcode; each list element is
the `(now, referrer, ip)` of one request, in arrival order. -/
def resolveMany (code : String) :
    ServerState → List (Int × Option String × String) → List ResolveResult × ServerState
  | st, [] => ([], st)
  | st, x :: rest =>
    let step := resolve st code x.1 x.2.1 x.2.2
    let restRes := resolveMany code step.2 rest
    (step.1 :: restRes.1, restRes.2)

/-- Registry/ledger consistency: every stored record has a ledger entry whose
length is the record's click counter. -/
def Inv (st : ServerState) : Prop :=
  ∀ code entry, st.urls code = some entry →
    ∃ l, st.clicks code = some l ∧ entry.clicks = l.length

/-- States the service can be in: the empty start state, closed under the
three handlers. -/
inductive Reachable : ServerState → Prop where
  | init : Reachable initState
  | createStep {st : ServerState} {now : Int} {req : CreateReq} {draws : List Draw}
      {res : CreateResult} {st' : ServerState} :
      Reachable st → createShort st now req draws = some (res, st') → Reachable st'
  | resolveStep {st : ServerState} {code : String} {now : Int} {ref : Option String}
      {ip : String} :
      Reachable st → Reachable (resolve st code now ref ip).2
  | statsStep {st : ServerState} {code : String} :
      Reachable st → Reachable (stats st code).2

/-- The all-zero generator attempt (six draws of index 0, i.e. `"aaaaaa"`). -/
def d0 : Draw := fun _ => ⟨0, by decide⟩

/-- Sample create request: a valid URL with the custom shortcode `"abcd"`. -/
def req0 : CreateReq := ⟨some "https://example.com", none, some "abcd"⟩

/-- State after `req0` succeeds at time 0 (expiry 0 + 30·60000). -/
def st1 : ServerState :=
  ⟨setKey initState.urls "abcd" ⟨"https://example.com", 0, 1800000, 0⟩,
   setKey initState.clicks "abcd" []⟩

/-- Sample state holding one auto-generated record for `"aaaaaa"`. -/
def st2 : ServerState :=
  ⟨setKey initState.urls "aaaaaa" ⟨"a:", 0, 1800000, 0⟩,
   setKey initState.clicks "aaaaaa" []⟩

/-- Sample state whose only record expired at time 100. -/
def st3 : ServerState :=
  ⟨setKey initState.urls "exp1" ⟨"https://example.com", 0, 100, 0⟩,
   setKey initState.clicks "exp1" []⟩

/-! Basic lemmas about the embedding. -/

theorem setKey_same {α : Type} (m : String → Option α) (k : String) (v : α) :
    setKey m k v k = some v := by
  simp [setKey]

theorem setKey_other {α : Type} (m : String → Option α) {k q : String} (v : α)
    (h : q ≠ k) : setKey m k v q = m q := by
  simp [setKey, h]

/-- Resolve on a missing shortcode: 404, state untouched. -/
theorem resolve_notFound {st : ServerState} {code : String} (now : Int)
    (ref : Option String) (ip : String) (hu : st.urls code = none) :
    resolve st code now ref ip = (.notFound, st) := by
  simp [resolve, hu]

/-- Resolve on an expired shortcode: 410, state untouched. -/
theorem resolve_expired_eq {st : ServerState} {code : String} {now : Int}
    (ref : Option String) (ip : String) {entry : UrlRecord}
    (hu : st.urls code = some entry) (hexp : entry.expiry < now) :
    resolve st code now ref ip = (.expired, st) := by
  simp [resolve, hu, hexp]

/-- Resolve on a live shortcode with a ledger entry: redirect, counter bumped,
one event appended. -/
theorem resolve_ok {st : ServerState} {code : String} {now : Int}
    {ref : Option String} {ip : String} {entry : UrlRecord} {l : List ClickEvent}
    (hu : st.urls code = some entry) (hexp : ¬ entry.expiry < now)
    (hl : st.clicks code = some l) :
    resolve st code now ref ip =
      (.redirect entry.url,
       ⟨setKey st.urls code { entry with clicks := entry.clicks + 1 },
        setKey st.clicks code (l ++ [mkClickEvent now ref ip])⟩) := by
  simp [resolve, hu, hexp, hl]

/-- Run of successful resolves: all redirect to the stored URL, the counter
advances by the number of calls, and the events are appended in call order. -/
theorem resolveMany_ok {code : String} :
    ∀ (calls : List (Int × Option String × String)) (st : ServerState)
      (entry : UrlRecord) (l : List ClickEvent),
      st.urls code = some entry → st.clicks code = some l →
      (∀ x ∈ calls, ¬ entry.expiry < x.1) →
      (resolveMany code st calls).1 =
        calls.map (fun _ => ResolveResult.redirect entry.url) ∧
      (resolveMany code st calls).2.urls code =
        some { entry with clicks := entry.clicks + calls.length } ∧
      (resolveMany code st calls).2.clicks code =
        some (l ++ calls.map (fun x => mkClickEvent x.1 x.2.1 x.2.2))
  | [], st, entry, l, hu, hl, _ => by
    simp [resolveMany, hu, hl]
  | x :: rest, st, entry, l, hu, hl, hexp => by
    have hx : ¬ entry.expiry < x.1 := hexp x (by simp)
    have hstep := @resolve_ok st code x.1 x.2.1 x.2.2 entry l hu hx hl
    set st2 : ServerState :=
      ⟨setKey st.urls code { entry with clicks := entry.clicks + 1 },
       setKey st.clicks code (l ++ [mkClickEvent x.1 x.2.1 x.2.2])⟩ with hst2
    have hu2 : st2.urls code = some { entry with clicks := entry.clicks + 1 } :=
      setKey_same _ _ _
    have hl2 : st2.clicks code = some (l ++ [mkClickEvent x.1 x.2.1 x.2.2]) :=
      setKey_same _ _ _
    have hexp2 : ∀ y ∈ rest, ¬ ({ entry with clicks := entry.clicks + 1 } : UrlRecord).expiry < y.1 :=
      fun y hy => hexp y (by simp [hy])
    obtain ⟨ih1, ih2, ih3⟩ := resolveMany_ok rest _ _ _ hu2 hl2 hexp2
    refine ⟨?_, ?_, ?_⟩
    · simp only [resolveMany, hstep]
      simpa using ih1
    · simp only [resolveMany, hstep]
      rw [ih2]
      exact congrArg (fun n => some ({ entry with clicks := n } : UrlRecord)) (by simp; omega)
    · simp only [resolveMany, hstep]
      rw [ih3]
      simp

/-- Alphabet facts: 62 symbols, each alphanumeric. -/
theorem chars_spec : chars.length = 62 ∧ ∀ c ∈ chars, isAlphaNumChar c = true := by
  decide

/-- Every generated candidate has exactly 6 characters. -/
theorem drawCode_length (d : Draw) : (drawCode d).length = 6 := by
  simp [drawCode, String.length]

/-- Every character of a generated candidate comes from the alphabet. -/
theorem drawCode_chars (d : Draw) : ∀ c ∈ (drawCode d).data, c ∈ chars := by
  intro c hc
  simp only [drawCode] at hc
  obtain ⟨i, -, rfl⟩ := List.mem_map.mp hc
  exact List.get_mem chars _ _

/-- A generated candidate passes the custom-shortcode regex. -/
theorem drawCode_valid (d : Draw) : isValidShortcode (drawCode d) = true := by
  unfold isValidShortcode
  rw [Bool.and_eq_true, List.all_eq_true]
  refine ⟨by rw [drawCode_length]; decide, fun c hc => ?_⟩
  exact chars_spec.2 c (drawCode_chars d c hc)

/-- Inversion of the generator loop: a returned code is free in the registry,
comes from some attempt of the stream, and every earlier attempt hit an
occupied code. -/
theorem generateShortcode_eq_some {m : String → Option UrlRecord} :
    ∀ {draws : List Draw} {code : String}, generateShortcode m draws = some code →
      m code = none ∧
      ∃ pre d post, draws = pre ++ d :: post ∧ code = drawCode d ∧
        ∀ d2 ∈ pre, (m (drawCode d2)).isSome = true
  | [], code, h => by simp [generateShortcode] at h
  | d :: rest, code, h => by
    by_cases hocc : (m (drawCode d)).isSome
    · rw [generateShortcode, if_pos hocc] at h
      obtain ⟨hfree, pre, d2, post, hdec, hcode, hpre⟩ := generateShortcode_eq_some h
      refine ⟨hfree, d :: pre, d2, post, by simp [hdec], hcode, ?_⟩
      intro d3 hd3
      rcases List.mem_cons.mp hd3 with h3 | h3
      · exact h3 ▸ hocc
      · exact hpre d3 h3
    · rw [generateShortcode, if_neg hocc] at h
      obtain rfl : drawCode d = code := by simpa using h
      exact ⟨Option.not_isSome_iff_eq_none.mp hocc, [], d, rest, rfl, rfl, by simp⟩

/-- Inversion of the error outcomes of the shortcode-selection stage. -/
theorem codeStage_error {st : ServerState} {req : CreateReq} {draws : List Draw}
    {e : CreateResult} (h : codeStage st req draws = some (.error e)) :
    e = .invalidShortcode ∨ e = .shortcodeConflict := by
  unfold codeStage at h
  rcases hc : req.shortcode with _ | c <;> rw [hc] at h
  · rcases hg : generateShortcode st.urls draws with _ | s <;> rw [hg] at h <;> simp at h
  · by_cases hce : c = ""
    · simp only [hce, ne_eq, not_true_eq_false, if_false] at h
      rcases hg : generateShortcode st.urls draws with _ | s <;> rw [hg] at h <;> simp at h
    · simp only [ne_eq, hce, not_false_eq_true, if_true] at h
      by_cases hv : isValidShortcode c
      · simp only [hv, Bool.not_true, Bool.false_eq_true, if_false] at h
        by_cases hex : (st.urls c).isSome
        · simp only [hex, if_true] at h
          exact Or.inr (by simpa using h.symm)
        · simp [hex] at h
      · simp only [Bool.not_eq_true] at hv
        simp only [hv, Bool.not_false, if_true] at h
        exact Or.inl (by simpa using h.symm)

/-- Inversion of the success outcome of the shortcode-selection stage: either
the custom branch accepted the caller's code, or the generator produced one. -/
theorem codeStage_ok {st : ServerState} {req : CreateReq} {draws : List Draw}
    {code : String} (h : codeStage st req draws = some (.ok code)) :
    (∃ c, req.shortcode = some c ∧ c ≠ "" ∧ code = c ∧ isValidShortcode c = true ∧
      st.urls c = none) ∨
    ((req.shortcode = none ∨ req.shortcode = some "") ∧
      generateShortcode st.urls draws = some code) := by
  unfold codeStage at h
  rcases hc : req.shortcode with _ | c <;> rw [hc] at h
  · refine Or.inr ⟨Or.inl rfl, ?_⟩
    rcases hg : generateShortcode st.urls draws with _ | s
    · rw [hg] at h; simp at h
    · rw [hg] at h; simpa using h
  · by_cases hce : c = ""
    · subst hce
      simp only [ne_eq, not_true_eq_false, if_false] at h
      refine Or.inr ⟨Or.inr rfl, ?_⟩
      rcases hg : generateShortcode st.urls draws with _ | s
      · rw [hg] at h; simp at h
      · rw [hg] at h; simpa using h
    · simp only [ne_eq, hce, not_false_eq_true, if_true] at h
      by_cases hv : isValidShortcode c
      · simp only [hv, Bool.not_true, Bool.false_eq_true, if_false] at h
        by_cases hex : (st.urls c).isSome
        · simp [hex] at h
        · simp only [hex, if_false] at h
          obtain rfl : c = code := by simpa using h
          exact Or.inl ⟨c, rfl, hce, rfl, hv, Option.not_isSome_iff_eq_none.mp hex⟩
      · simp only [Bool.not_eq_true] at hv
        simp [hv] at h

/-- Create with a missing URL field: 400, state untouched. -/
theorem createShort_noUrl {st : ServerState} (now : Int) {req : CreateReq}
    (draws : List Draw) (hu : req.url = none) :
    createShort st now req draws = some (.invalidUrl, st) := by
  simp [createShort, hu]

/-- Create with a present URL that fails the library check (this includes the
JS-falsy empty string): 400, state untouched. -/
theorem createShort_badUrl {st : ServerState} (now : Int) {req : CreateReq}
    (draws : List Draw) {u : String} (hu : req.url = some u)
    (huri : isUri u = false) :
    createShort st now req draws = some (.invalidUrl, st) := by
  by_cases hne : u = "" <;> simp [createShort, hu, huri, hne]

/-- Create reaching an error of the shortcode stage returns it with the state
untouched. -/
theorem createShort_codeErr {st : ServerState} (now : Int) {req : CreateReq}
    {draws : List Draw} {u : String} {e : CreateResult} (hu : req.url = some u)
    (hne : u ≠ "") (huri : isUri u = true)
    (hcs : codeStage st req draws = some (.error e)) :
    createShort st now req draws = some (e, st) := by
  simp [createShort, hu, hne, huri, hcs]

/-- Create past the shortcode stage with a rejected validity: 400, state
untouched. -/
theorem createShort_badValidity {st : ServerState} (now : Int) {req : CreateReq}
    {draws : List Draw} {u code : String} (hu : req.url = some u)
    (hne : u ≠ "") (huri : isUri u = true)
    (hcs : codeStage st req draws = some (.ok code))
    (hv : checkValidity req.validity = .error ()) :
    createShort st now req draws = some (.invalidValidity, st) := by
  simp [createShort, hu, hne, huri, hcs, hv]

/-- Create past the shortcode stage with an accepted validity: 201, record
and empty ledger installed. -/
theorem createShort_success {st : ServerState} (now : Int) {req : CreateReq}
    {draws : List Draw} {u code : String} {duration : Int} (hu : req.url = some u)
    (hne : u ≠ "") (huri : isUri u = true)
    (hcs : codeStage st req draws = some (.ok code))
    (hv : checkValidity req.validity = .ok duration) :
    createShort st now req draws =
      some (.created code (getExpiryDate now duration),
        ⟨setKey st.urls code ⟨u, now, getExpiryDate now duration, 0⟩,
         setKey st.clicks code []⟩) := by
  simp [createShort, hu, hne, huri, hcs, hv]

/-- Case analysis of any returned create outcome: either an error left the
state untouched, or a record and an empty ledger entry were installed. -/
theorem createShort_inv {st : ServerState} {now : Int} {req : CreateReq}
    {draws : List Draw} {res : CreateResult} {st' : ServerState}
    (h : createShort st now req draws = some (res, st')) :
    st' = st ∨
    ∃ u code duration, req.url = some u ∧ u ≠ "" ∧ isUri u = true ∧
      res = .created code (getExpiryDate now duration) ∧
      codeStage st req draws = some (.ok code) ∧
      checkValidity req.validity = .ok duration ∧
      st' = ⟨setKey st.urls code ⟨u, now, getExpiryDate now duration, 0⟩,
             setKey st.clicks code []⟩ := by
  rcases hu : req.url with _ | u
  · rw [createShort_noUrl now draws hu] at h
    simp only [Option.some.injEq, Prod.mk.injEq] at h
    exact Or.inl h.2.symm
  · rcases huri : isUri u with _ | _
    · rw [createShort_badUrl now draws hu huri] at h
      simp only [Option.some.injEq, Prod.mk.injEq] at h
      exact Or.inl h.2.symm
    · by_cases hne : u = ""
      · exact absurd (hne ▸ huri) (by decide)
      · rcases hcs : codeStage st req draws with _ | r
        · rw [createShort, hu] at h
          simp [hne, huri, hcs] at h
        · rcases r with e | code
          · rw [createShort_codeErr now hu hne huri hcs] at h
            simp only [Option.some.injEq, Prod.mk.injEq] at h
            exact Or.inl h.2.symm
          · rcases hv : checkValidity req.validity with e | duration
            · obtain rfl : e = () := rfl
              rw [createShort_badValidity now hu hne huri hcs hv] at h
              simp only [Option.some.injEq, Prod.mk.injEq] at h
              exact Or.inl h.2.symm
            · rw [createShort_success now hu hne huri hcs hv] at h
              simp only [Option.some.injEq, Prod.mk.injEq] at h
              exact Or.inr ⟨u, code, duration, rfl, hne, huri, h.1.symm, rfl, rfl, h.2.symm⟩

/-- Inversion of a successful create: the URL passed, the shortcode stage
accepted `code`, the validity check produced the duration, and the new state
installs the record and the empty ledger. -/
theorem createShort_created {st : ServerState} {now : Int} {req : CreateReq}
    {draws : List Draw} {code : String} {expiry : Int} {st' : ServerState}
    (h : createShort st now req draws = some (.created code expiry, st')) :
    ∃ u duration, req.url = some u ∧ u ≠ "" ∧ isUri u = true ∧
      codeStage st req draws = some (.ok code) ∧
      checkValidity req.validity = .ok duration ∧
      expiry = getExpiryDate now duration ∧
      st' = ⟨setKey st.urls code ⟨u, now, expiry, 0⟩, setKey st.clicks code []⟩ := by
  rcases hu : req.url with _ | u
  · rw [createShort_noUrl now draws hu] at h; simp at h
  · rcases huri : isUri u with _ | _
    · rw [createShort_badUrl now draws hu huri] at h; simp at h
    · by_cases hne : u = ""
      · exact absurd (hne ▸ huri) (by decide)
      · rcases hcs : codeStage st req draws with _ | r
        · rw [createShort, hu] at h
          simp [hne, huri, hcs] at h
        · rcases r with e | code2
          · rw [createShort_codeErr now hu hne huri hcs] at h
            rcases codeStage_error hcs with rfl | rfl <;> simp at h
          · rcases hv : checkValidity req.validity with e | duration
            · obtain rfl : e = () := rfl
              rw [createShort_badValidity now hu hne huri hcs hv] at h
              simp at h
            · rw [createShort_success now hu hne huri hcs hv] at h
              simp only [Option.some.injEq, Prod.mk.injEq, CreateResult.created.injEq] at h
              obtain ⟨⟨rfl, rfl⟩, hst⟩ := h
              exact ⟨u, duration, rfl, hne, huri, rfl, rfl, rfl, hst.symm⟩

/-- The stats handler never changes the state. -/
theorem stats_snd (st : ServerState) (code : String) : (stats st code).2 = st := by
  unfold stats
  rcases st.urls code with _ | entry <;> simp

/-- The empty start state satisfies the counter invariant. -/
theorem inv_init : Inv initState := by
  intro code entry h
  simp [initState] at h

/-- The create handler preserves the counter invariant. -/
theorem inv_create {st : ServerState} {now : Int} {req : CreateReq} {draws : List Draw}
    {res : CreateResult} {st' : ServerState} (hinv : Inv st)
    (h : createShort st now req draws = some (res, st')) : Inv st' := by
  rcases createShort_inv h with rfl | ⟨u, code, duration, -, -, -, -, -, -, rfl⟩
  · exact hinv
  · intro k e hk
    by_cases hkc : k = code
    · subst hkc
      simp only [setKey_same] at hk
      obtain rfl : (⟨u, now, getExpiryDate now duration, 0⟩ : UrlRecord) = e := by
        simpa using hk
      exact ⟨[], setKey_same _ _ _, rfl⟩
    · simp only [setKey_other _ _ hkc] at hk
      obtain ⟨l, hl, hlen⟩ := hinv k e hk
      exact ⟨l, by simpa [setKey_other _ _ hkc] using hl, hlen⟩

/-- The resolve handler preserves the counter invariant. -/
theorem inv_resolve {st : ServerState} (code : String) (now : Int) (ref : Option String)
    (ip : String) (hinv : Inv st) : Inv (resolve st code now ref ip).2 := by
  rcases hu : st.urls code with _ | entry
  · rw [resolve_notFound now ref ip hu]; exact hinv
  · by_cases hexp : entry.expiry < now
    · rw [resolve_expired_eq ref ip hu hexp]; exact hinv
    · obtain ⟨l, hl, hlen⟩ := hinv code entry hu
      rw [resolve_ok hu hexp hl]
      intro k e hk
      by_cases hkc : k = code
      · subst hkc
        simp only [setKey_same] at hk
        obtain rfl : ({ entry with clicks := entry.clicks + 1 } : UrlRecord) = e := by
          simpa using hk
        exact ⟨l ++ [mkClickEvent now ref ip], setKey_same _ _ _, by simp [hlen]⟩
      · simp only [setKey_other _ _ hkc] at hk
        obtain ⟨l2, hl2, hlen2⟩ := hinv k e hk
        exact ⟨l2, by simpa [setKey_other _ _ hkc] using hl2, hlen2⟩

/-- Every reachable state satisfies the counter invariant. -/
theorem reachable_inv {st : ServerState} (h : Reachable st) : Inv st := by
  induction h with
  | init => exact inv_init
  | createStep _ hc ih => exact inv_create ih hc
  | resolveStep _ ih => exact inv_resolve _ _ _ _ ih
  | statsStep _ ih => rw [stats_snd]; exact ih

/-- Resolve on a live record whose ledger entry is missing: the counter is
still incremented (the JS `entry.clicks++` runs first), the push throws, and
the error middleware answers 500. -/
theorem resolve_noLedger {st : ServerState} {code : String} {now : Int}
    {ref : Option String} {ip : String} {entry : UrlRecord}
    (hu : st.urls code = some entry) (hexp : ¬ entry.expiry < now)
    (hl : st.clicks code = none) :
    resolve st code now ref ip =
      (.serverError, ⟨setKey st.urls code { entry with clicks := entry.clicks + 1 },
                      st.clicks⟩) := by
  simp [resolve, hu, hexp, hl]

/-! Claim theorems. -/

/-- C1: on a shortcode with an existing, non-expired record (and its ledger
entry), resolve returns the stored original URL, increments that record's
click counter by exactly one, and appends exactly one click event with
timestamp `now` and the caller-supplied referrer and origin address; hence a
run of N such calls on a fresh record yields clickCount = N and a ledger of
exactly the N events in call order. -/
theorem claim_C1_resolve_click_accounting :
    (∀ st code now ref ip entry l,
        st.urls code = some entry → ¬ entry.expiry < now → st.clicks code = some l →
        resolve st code now ref ip =
          (.redirect entry.url,
           ⟨setKey st.urls code { entry with clicks := entry.clicks + 1 },
            setKey st.clicks code (l ++ [mkClickEvent now ref ip])⟩)) ∧
    (∀ st code entry calls,
        st.urls code = some entry → entry.clicks = 0 → st.clicks code = some [] →
        (∀ x ∈ calls, ¬ entry.expiry < x.1) →
        (resolveMany code st calls).1 =
          calls.map (fun _ => ResolveResult.redirect entry.url) ∧
        (resolveMany code st calls).2.urls code =
          some { entry with clicks := calls.length } ∧
        (resolveMany code st calls).2.clicks code =
          some (calls.map (fun x => mkClickEvent x.1 x.2.1 x.2.2))) := by
  refine ⟨fun st code now ref ip entry l hu hexp hl => resolve_ok hu hexp hl,
          fun st code entry calls hu h0 hl hexp => ?_⟩
  obtain ⟨h1, h2, h3⟩ := resolveMany_ok calls st entry [] hu hl hexp
  refine ⟨h1, ?_, by simpa using h3⟩
  rw [h2]
  exact congrArg (fun n => some ({ entry with clicks := n } : UrlRecord)) (by omega)

/-- Witness for C1 at a freshly created record. -/
theorem claim_C1_witness :
    (resolve st1 "abcd" 5 (some "https://ref.example") "1.2.3.4").1 =
      .redirect "https://example.com" ∧
    (resolveMany "abcd" st1 [(5, some "r", "1.1.1.1"), (7, none, "2.2.2.2")]).1 =
      [.redirect "https://example.com", .redirect "https://example.com"] ∧
    (resolveMany "abcd" st1 [(5, some "r", "1.1.1.1"), (7, none, "2.2.2.2")]).2.urls "abcd" =
      some ⟨"https://example.com", 0, 1800000, 2⟩ ∧
    (resolveMany "abcd" st1 [(5, some "r", "1.1.1.1"), (7, none, "2.2.2.2")]).2.clicks "abcd" =
      some [⟨5, some "r", "1.1.1.1"⟩, ⟨7, none, "2.2.2.2"⟩] := by
  have h := claim_C1_resolve_click_accounting
  have h1 := h.1 st1 "abcd" 5 (some "https://ref.example") "1.2.3.4"
      ⟨"https://example.com", 0, 1800000, 0⟩ [] rfl (by decide) rfl
  have h2 := h.2 st1 "abcd" ⟨"https://example.com", 0, 1800000, 0⟩
      [(5, some "r", "1.1.1.1"), (7, none, "2.2.2.2")] rfl rfl rfl (by decide)
  exact ⟨by rw [h1], h2.1, h2.2.1, h2.2.2⟩

/-- C2: every reachable state satisfies the invariant that each stored
record's click counter equals the length of that shortcode's ledger entry;
create establishes it with counter 0 and an empty ledger entry, resolve
preserves it (updating both together), and stats changes nothing. -/
theorem claim_C2_click_count_invariant :
    (∀ st, Reachable st → Inv st) ∧
    (∀ st now req draws code expiry st',
        createShort st now req draws = some (.created code expiry, st') →
        ∃ rec, st'.urls code = some rec ∧ rec.clicks = 0 ∧ st'.clicks code = some []) ∧
    (∀ st code now ref ip, Inv st → Inv (resolve st code now ref ip).2) ∧
    (∀ st code, (stats st code).2 = st) := by
  refine ⟨fun st h => reachable_inv h, ?_,
          fun st code now ref ip h => inv_resolve code now ref ip h, stats_snd⟩
  intro st now req draws code expiry st' h
  obtain ⟨u, duration, -, -, -, -, -, -, rfl⟩ := createShort_created h
  exact ⟨⟨u, now, expiry, 0⟩, setKey_same _ _ _, rfl, setKey_same _ _ _⟩

/-- Witness for C2 along the trace init → create → resolve. -/
theorem claim_C2_witness :
    Inv initState ∧
    (∃ rec, st1.urls "abcd" = some rec ∧ rec.clicks = 0 ∧ st1.clicks "abcd" = some []) ∧
    Inv (resolve st1 "abcd" 5 none "1.2.3.4").2 ∧
    (stats st1 "abcd").2 = st1 := by
  have h := claim_C2_click_count_invariant
  have hc : createShort initState 0 req0 [] = some (.created "abcd" 1800000, st1) := rfl
  have hreach : Reachable st1 := Reachable.createStep Reachable.init hc
  exact ⟨h.1 _ Reachable.init, h.2.1 _ _ _ _ _ _ _ hc,
         h.2.2.1 st1 "abcd" 5 none "1.2.3.4" (h.1 _ hreach), h.2.2.2 st1 "abcd"⟩

/-- C3: resolve on an existing record whose expiry is in the past fails with
Expired and leaves the whole state unchanged: the record is kept, the counter
is not incremented, and no event is appended. -/
theorem claim_C3_resolve_expired_unchanged :
    ∀ st code now ref ip entry,
      st.urls code = some entry → entry.expiry < now →
      resolve st code now ref ip = (.expired, st) :=
  fun _ _ _ ref ip _ hu hexp => resolve_expired_eq ref ip hu hexp

/-- Witness for C3 at a record that expired at time 100, resolved at 200. -/
theorem claim_C3_witness :
    resolve st3 "exp1" 200 none "1.2.3.4" = (.expired, st3) :=
  claim_C3_resolve_expired_unchanged st3 "exp1" 200 none "1.2.3.4"
    ⟨"https://example.com", 0, 100, 0⟩ rfl (by decide)

/-- C4: stats fails with NotFound exactly when no record exists; on any
existing record — expired or not — it returns the shortcode, URL, creation
time, expiry, counter and full ordered click list, changes no state, and a
repeated call returns the identical result. -/
theorem claim_C4_stats_contract :
    (∀ st code, (stats st code).1 = .notFound ↔ st.urls code = none) ∧
    (∀ st code entry, st.urls code = some entry →
        (stats st code).1 =
          .ok ⟨code, entry.url, entry.createdAt, entry.expiry, entry.clicks,
               (st.clicks code).getD []⟩) ∧
    (∀ st code, (stats st code).2 = st) ∧
    (∀ st code, stats (stats st code).2 code = stats st code) := by
  refine ⟨?_, ?_, stats_snd, fun st code => by rw [stats_snd]⟩
  · intro st code
    constructor
    · intro h
      rcases hu : st.urls code with _ | entry
      · rfl
      · rw [stats] at h
        simp [hu] at h
    · intro h
      simp [stats, h]
  · intro st code entry hu
    rw [stats]
    simp only [hu]
    exact congrArg StatsResult.ok (congrArg _ (List.map_id' _))

/-- Witness for C4, including the stats-after-expiry case. -/
theorem claim_C4_witness :
    ((stats st1 "zzzz").1 = .notFound ↔ st1.urls "zzzz" = none) ∧
    (stats st1 "abcd").1 = .ok ⟨"abcd", "https://example.com", 0, 1800000, 0, []⟩ ∧
    (stats st3 "exp1").1 = .ok ⟨"exp1", "https://example.com", 0, 100, 0, []⟩ ∧
    (stats st1 "abcd").2 = st1 ∧
    stats (stats st1 "abcd").2 "abcd" = stats st1 "abcd" := by
  have h := claim_C4_stats_contract
  exact ⟨h.1 st1 "zzzz",
         h.2.1 st1 "abcd" ⟨"https://example.com", 0, 1800000, 0⟩ rfl,
         h.2.1 st3 "exp1" ⟨"https://example.com", 0, 100, 0⟩ rfl,
         h.2.2.1 st1 "abcd", h.2.2.2 st1 "abcd"⟩

/-- C5: every shortcode returned by a successful create passes the
`^[A-Za-z0-9]{4,}$` test and was absent from the registry at the instant of
creation; an auto-generated one is exactly 6 characters drawn from the
62-character alphanumeric alphabet, re-drawn until a free code is found. -/
theorem claim_C5_created_code_valid_unique :
    (∀ st now req draws code expiry st',
        createShort st now req draws = some (.created code expiry, st') →
        isValidShortcode code = true ∧ st.urls code = none) ∧
    (∀ st now req draws code expiry st',
        createShort st now req draws = some (.created code expiry, st') →
        req.shortcode = none ∨ req.shortcode = some "" →
        code.length = 6 ∧ (∀ c ∈ code.data, c ∈ chars) ∧
        ∃ pre d post, draws = pre ++ d :: post ∧ code = drawCode d ∧
          st.urls (drawCode d) = none ∧
          ∀ d2 ∈ pre, (st.urls (drawCode d2)).isSome = true) ∧
    chars.length = 62 := by
  refine ⟨?_, ?_, chars_spec.1⟩
  · intro st now req draws code expiry st' h
    obtain ⟨u, duration, -, -, -, hcs, -, -, -⟩ := createShort_created h
    rcases codeStage_ok hcs with ⟨c, -, -, rfl, hv, hfree⟩ | ⟨-, hgen⟩
    · exact ⟨hv, hfree⟩
    · obtain ⟨hfree, -⟩ := generateShortcode_eq_some hgen
      obtain ⟨pre, d, post, -, rfl, -⟩ := (generateShortcode_eq_some hgen).2
      exact ⟨drawCode_valid d, hfree⟩
  · intro st now req draws code expiry st' h hauto
    obtain ⟨u, duration, -, -, -, hcs, -, -, -⟩ := createShort_created h
    rcases codeStage_ok hcs with ⟨c, hsc, hcne, rfl, -, -⟩ | ⟨-, hgen⟩
    · rcases hauto with hnone | hempty
      · rw [hsc] at hnone; cases hnone
      · rw [hsc] at hempty
        exact absurd (by simpa using hempty) hcne
    · obtain ⟨hfree, pre, d, post, hdec, rfl, hpre⟩ := generateShortcode_eq_some hgen
      exact ⟨drawCode_length d, drawCode_chars d, pre, d, post, hdec, rfl, hfree, hpre⟩

/-- Witness for C5: the custom path on `req0` and the generated path on the
all-zero draw. -/
theorem claim_C5_witness :
    (isValidShortcode "abcd" = true ∧ initState.urls "abcd" = none) ∧
    ("aaaaaa".length = 6 ∧ (∀ c ∈ "aaaaaa".data, c ∈ chars) ∧
      ∃ pre d post, [d0] = pre ++ d :: post ∧ "aaaaaa" = drawCode d ∧
        initState.urls (drawCode d) = none ∧
        ∀ d2 ∈ pre, (initState.urls (drawCode d2)).isSome = true) ∧
    chars.length = 62 := by
  have h := claim_C5_created_code_valid_unique
  refine ⟨h.1 initState 0 req0 [] "abcd" 1800000 st1 rfl, ?_, h.2.2⟩
  exact h.2.1 initState 0 ⟨some "a:", none, none⟩ [d0] "aaaaaa" 1800000 st2 rfl (Or.inl rfl)

/-- Counterexample to C6 as stated: the empty string is a supplied custom
shortcode that fails the `{4,}` pattern, yet create does not fail with
InvalidShortcode — the JS truthiness test `if (shortcode)` treats `""` as
absent and auto-generates a code instead. -/
theorem claim_C6_counterexample :
    isValidShortcode "" = false ∧
    (createShort initState 0 ⟨some "https://example.com", none, some ""⟩ [d0]).map Prod.fst =
      some (.created "aaaaaa" 1800000) := ⟨by decide, rfl⟩

/-- C6 (amended): for a create call with a valid URL and a non-empty custom
shortcode supplied, a shortcode failing `^[A-Za-z0-9]{4,}$` fails with
InvalidShortcode, and a matching shortcode that already keys a record fails
with ShortcodeConflict; in both cases the state is unchanged and no
substitute code is chosen. -/
theorem claim_C6_custom_shortcode_errors :
    ∀ st now req draws u c,
      req.url = some u → u ≠ "" → isUri u = true →
      req.shortcode = some c → c ≠ "" →
      (isValidShortcode c = false →
        createShort st now req draws = some (.invalidShortcode, st)) ∧
      (isValidShortcode c = true → (st.urls c).isSome = true →
        createShort st now req draws = some (.shortcodeConflict, st)) := by
  intro st now req draws u c hu hne huri hsc hcne
  constructor
  · intro hbad
    have hcs : codeStage st req draws = some (.error .invalidShortcode) := by
      simp [codeStage, hsc, hcne, hbad]
    exact createShort_codeErr now hu hne huri hcs
  · intro hgood hex
    have hcs : codeStage st req draws = some (.error .shortcodeConflict) := by
      simp [codeStage, hsc, hcne, hgood, hex]
    exact createShort_codeErr now hu hne huri hcs

/-- Witness for the amended C6: the spec's 3-character scenario `"abc"`, and
a conflict on the occupied code `"abcd"`. -/
theorem claim_C6_witness :
    createShort initState 0 ⟨some "https://example.com", none, some "abc"⟩ [] =
      some (.invalidShortcode, initState) ∧
    createShort st1 0 ⟨some "https://example.com", none, some "abcd"⟩ [] =
      some (.shortcodeConflict, st1) := by
  have h1 := claim_C6_custom_shortcode_errors initState 0
      ⟨some "https://example.com", none, some "abc"⟩ [] "https://example.com" "abc"
      rfl (by decide) (by decide) rfl (by decide)
  have h2 := claim_C6_custom_shortcode_errors st1 0
      ⟨some "https://example.com", none, some "abcd"⟩ [] "https://example.com" "abcd"
      rfl (by decide) (by decide) rfl (by decide)
  exact ⟨h1.1 (by decide), h2.2 (by decide) rfl⟩

/-- C7: once the URL and shortcode stages pass, a missing validity defaults
to 30 minutes, a present validity that is not a positive integer fails with
InvalidValidity leaving the state unchanged, and on success the stored record
has expiry = createdAt + validityMinutes, hence expiry > createdAt. -/
theorem claim_C7_validity_contract :
    ∀ st now req draws u code,
      req.url = some u → u ≠ "" → isUri u = true →
      codeStage st req draws = some (.ok code) →
      (∀ v, req.validity = some v → ¬(v.den = 1 ∧ 1 ≤ v) →
        createShort st now req draws = some (.invalidValidity, st)) ∧
      (req.validity = none →
        createShort st now req draws =
          some (.created code (now + 30 * 60000),
            ⟨setKey st.urls code ⟨u, now, now + 30 * 60000, 0⟩,
             setKey st.clicks code []⟩) ∧
        now < now + 30 * 60000) ∧
      (∀ v, req.validity = some v → v.den = 1 → 1 ≤ v →
        createShort st now req draws =
          some (.created code (now + v.num * 60000),
            ⟨setKey st.urls code ⟨u, now, now + v.num * 60000, 0⟩,
             setKey st.clicks code []⟩) ∧
        now < now + v.num * 60000) := by
  intro st now req draws u code hu hne huri hcs
  refine ⟨?_, ?_, ?_⟩
  · intro v hv hbad
    have hchk : checkValidity req.validity = .error () := by
      simp [checkValidity, hv, hbad]
    exact createShort_badValidity now hu hne huri hcs hchk
  · intro hv
    have hchk : checkValidity req.validity = .ok 30 := by simp [checkValidity, hv]
    refine ⟨by simpa [getExpiryDate] using createShort_success now hu hne huri hcs hchk, by omega⟩
  · intro v hv hden hge
    have hchk : checkValidity req.validity = .ok v.num := by
      simp [checkValidity, hv, hden, hge]
    refine ⟨by simpa [getExpiryDate] using createShort_success now hu hne huri hcs hchk, ?_⟩
    rw [← (Rat.den_eq_one_iff v).mp hden] at hge
    have h1 : (1 : Int) ≤ v.num := by exact_mod_cast hge
    have h60 : (60000 : Int) ≤ v.num * 60000 := by nlinarith
    linarith

/-- Witness for C7: a non-integer validity 5/2, the default, and validity 5. -/
theorem claim_C7_witness :
    createShort initState 0 ⟨some "https://example.com", some (mkRat 5 2), some "abcd"⟩ [] =
      some (.invalidValidity, initState) ∧
    (createShort initState 0 req0 [] =
      some (.created "abcd" (0 + 30 * 60000),
        ⟨setKey initState.urls "abcd" ⟨"https://example.com", 0, 0 + 30 * 60000, 0⟩,
         setKey initState.clicks "abcd" []⟩) ∧
      (0 : Int) < 0 + 30 * 60000) ∧
    (createShort initState 0 ⟨some "https://example.com", some (5 : ℚ), some "abcd"⟩ [] =
      some (.created "abcd" (0 + (5 : ℚ).num * 60000),
        ⟨setKey initState.urls "abcd" ⟨"https://example.com", 0, (0 + (5 : ℚ).num * 60000 : Int), 0⟩,
         setKey initState.clicks "abcd" []⟩) ∧
      (0 : Int) < 0 + (5 : ℚ).num * 60000) := by
  have hbad := claim_C7_validity_contract initState 0
      ⟨some "https://example.com", some (mkRat 5 2), some "abcd"⟩ [] "https://example.com"
      "abcd" rfl (by decide) (by decide) rfl
  have hdef := claim_C7_validity_contract initState 0 req0 [] "https://example.com"
      "abcd" rfl (by decide) (by decide) rfl
  have hfive := claim_C7_validity_contract initState 0
      ⟨some "https://example.com", some (5 : ℚ), some "abcd"⟩ [] "https://example.com"
      "abcd" rfl (by decide) (by decide) rfl
  exact ⟨hbad.1 (mkRat 5 2) rfl (by decide), hdef.2.1 rfl,
         hfive.2.2 (5 : ℚ) rfl (by decide) (by decide)⟩

/-- C8: a create call whose url field is missing, or present but rejected by
the URL check, fails with InvalidUrl and inserts nothing; in particular
`"not-a-url"` (no scheme) is rejected. -/
theorem claim_C8_invalid_url :
    (∀ st now req draws, req.url = none →
        createShort st now req draws = some (.invalidUrl, st)) ∧
    (∀ st now req draws u, req.url = some u → isUri u = false →
        createShort st now req draws = some (.invalidUrl, st)) ∧
    isUri "not-a-url" = false :=
  ⟨fun _ now req draws h => createShort_noUrl now draws h,
   fun _ now req draws _ hu huri => createShort_badUrl now draws hu huri,
   by decide⟩

/-- Witness for C8: a missing url and the spec's `"not-a-url"` scenario. -/
theorem claim_C8_witness :
    createShort initState 0 ⟨none, none, none⟩ [] = some (.invalidUrl, initState) ∧
    createShort initState 0 ⟨some "not-a-url", none, some "abcd"⟩ [] =
      some (.invalidUrl, initState) := by
  have h := claim_C8_invalid_url
  exact ⟨h.1 initState 0 ⟨none, none, none⟩ [] rfl,
         h.2.1 initState 0 ⟨some "not-a-url", none, some "abcd"⟩ [] "not-a-url" rfl
           (by decide)⟩

/-- C10: on an existing record, resolve fails with Expired exactly when the
current time is strictly after the stored expiry (the code compares
`entry.expiry < now`); at the boundary instant now = expiry it still
redirects, increments the counter, and appends the click event. -/
theorem claim_C10_expiry_boundary :
    ∀ st code now ref ip entry,
      st.urls code = some entry →
      (((resolve st code now ref ip).1 = .expired) ↔ entry.expiry < now) ∧
      (∀ l, now = entry.expiry → st.clicks code = some l →
        resolve st code now ref ip =
          (.redirect entry.url,
           ⟨setKey st.urls code { entry with clicks := entry.clicks + 1 },
            setKey st.clicks code (l ++ [mkClickEvent now ref ip])⟩)) := by
  intro st code now ref ip entry hu
  constructor
  · constructor
    · intro h
      by_contra hexp
      rcases hl : st.clicks code with _ | l
      · rw [resolve_noLedger hu hexp hl] at h
        cases h
      · rw [resolve_ok hu hexp hl] at h
        cases h
    · intro hexp
      rw [resolve_expired_eq ref ip hu hexp]
  · intro l hnow hl
    have hexp : ¬ entry.expiry < now := by rw [hnow]; exact lt_irrefl _
    exact resolve_ok hu hexp hl

/-- Witness for C10 at the exact boundary instant of `st1`'s record. -/
theorem claim_C10_witness :
    (((resolve st1 "abcd" 1800000 none "9.9.9.9").1 = .expired) ↔
      (1800000 : Int) < 1800000) ∧
    resolve st1 "abcd" 1800000 none "9.9.9.9" =
      (.redirect "https://example.com",
       ⟨setKey st1.urls "abcd" ⟨"https://example.com", 0, 1800000, 1⟩,
        setKey st1.clicks "abcd" [⟨1800000, none, "9.9.9.9"⟩]⟩) := by
  have h := claim_C10_expiry_boundary st1 "abcd" 1800000 none "9.9.9.9"
      ⟨"https://example.com", 0, 1800000, 0⟩ rfl
  exact ⟨h.1, h.2 [] rfl rfl⟩

end UrlShortener
